import Mathlib

/-!
Verification development for the ioBroker ACME adapter with its bundled
Netcup DNS-01 challenge handler.

The JavaScript/TypeScript sources are shallowly embedded as executable Lean
definitions:

* JS `String.prototype.split('.')` / `split(',')` and `Array.prototype.join('.')`
  are modelled at the character-list level (`splitDot`, `splitComma`, `joinDot`);
* the default JS `Array.prototype.sort()` comparison of strings (code-unit
  lexicographic order) is modelled by `charListLt` / `jsLeP`;
* `async` control flow with `throw` / `try` / `catch` / `finally` is modelled
  with `Except`; the outcomes of remote API calls and DNS lookups are supplied
  by environment parameters (`NetcupEnv`, probe functions, lookup functions);
* operations additionally return a trace (`List OpEvent`, probed-candidate
  lists, attempt counts) so that statements about which remote actions were
  performed can be expressed.
-/

deriving instance DecidableEq for Except

/-- Character-level model of JS `fullDomain.split(sep)` for a single-character
separator: splitting `[]` yields `[[]]` (JS: `''.split('.') == ['']`), and each
separator character starts a new segment. -/
def splitCharAux (sep : Char) : List Char → List (List Char)
  | [] => [[]]
  | c :: rest =>
    match splitCharAux sep rest with
    | [] => [[c]]
    | h :: t => if c = sep then [] :: h :: t else (c :: h) :: t

/-- Model of JS `fullDomain.split('.')` (as used by `findZone`). -/
def splitDot (s : String) : List String :=
  (splitCharAux '.' s.data).map String.mk

/-- Model of JS `s.split(',')` (as used by `generateCollection` on the
configured common-name / alt-name strings). -/
def splitComma (s : String) : List String :=
  (splitCharAux ',' s.data).map String.mk

/-- Model of JS `parts.join('.')`. -/
def joinDot : List String → String
  | [] => ""
  | [a] => a
  | a :: b :: t => a ++ "." ++ joinDot (b :: t)

/-- Character-level counterpart of `joinDot`, used to relate `splitDot` and
`joinDot`. -/
def charJoinDot : List (List Char) → List Char
  | [] => []
  | [a] => a
  | a :: b :: t => a ++ '.' :: charJoinDot (b :: t)

/-- Model of JS `s.trim()` (strip leading and trailing whitespace). -/
def jsTrim (s : String) : String :=
  String.mk (((s.data.dropWhile Char.isWhitespace).reverse.dropWhile Char.isWhitespace).reverse)

/-- Model of JS `s.replace(/\s/g, '')` (remove all whitespace characters). -/
def stripWhitespace (s : String) : String :=
  String.mk (s.data.filter (fun c => !c.isWhitespace))

/-- Strict code-unit lexicographic comparison of two character lists; model of
the string comparison performed by the default JS `Array.prototype.sort()`
comparator. -/
def charListLt : List Char → List Char → Bool
  | _, [] => false
  | [], _ :: _ => true
  | a :: as, b :: bs =>
    if a < b then true
    else if b < a then false
    else charListLt as bs

/-- Relation `jsLeP a b` holds when `a` sorts before or equal to `b` under the default
JS string sort order (i.e. `!(b < a)`). -/
def jsLeP (a b : String) : Prop := charListLt b.data a.data = false

instance : DecidableRel jsLeP :=
  fun a b => inferInstanceAs (Decidable (charListLt b.data a.data = false))

/-- Model of `main.ts` `_arraysMatch(arr1, arr2)`: reference/structural equality
shortcut, length check, then element-wise comparison of the two sorted copies
(`[...arr].sort()` with the default comparator). The `Array.isArray` guard of
the source always passes here because the model's inputs are lists. -/
def _arraysMatch (arr1 arr2 : List String) : Bool :=
  if arr1 = arr2 then true
  else if arr1.length ≠ arr2.length then false
  else decide (List.insertionSort jsLeP arr1 = List.insertionSort jsLeP arr2)

/-- Constant from `main.ts`: `const renewWindow = 60 * 60 * 24 * 7 * 1000;` (7 days in ms). -/
def renewWindow : Int := 60 * 60 * 24 * 7 * 1000

/-- The fields of the parsed certificate (`x509.parseCert`) that
`generateCollection` reads: `Date.parse(crt.notAfter)` (milliseconds),
`crt.subject.commonName`, and `crt.altNames`. -/
structure ParsedCert where
  notAfterMs : Int
  subjectCommonName : String
  altNames : List String
deriving DecidableEq

/-- The fields of a stored certificate collection that the renewal decision
reads: the PEM text handed to the parser and the staging flag. -/
structure ExistingCollection where
  cert : String
  staging : Bool
deriving DecidableEq

/-- Model of the `domains` computation at the top of `generateCollection`:
`commonName.split(',').map(trim).filter(nonempty)` followed by
`altNames.replace(/\s/g,'').split(',').filter(nonempty)`. -/
def domainsOf (commonName altNames : String) : List String :=
  ((splitComma commonName).map jsTrim).filter (fun n => ¬ n = "")
    ++ ((splitComma (stripWhitespace altNames)).filter (fun n => ¬ n = ""))

/-- Model of the renewal decision of `generateCollection` (`main.ts` lines
611-653): the value of the `create` flag after the existing-collection check.
`parseCert` supplies the outcome of `x509.parseCert`, `now` is `Date.now()`. -/
def generateCollectionShouldCreate (parseCert : String → Except String ParsedCert) (now : Int)
    (useStaging : Bool) (commonName : String) (domains : List String)
    (existingCollection : Option ExistingCollection) : Bool :=
  match existingCollection with
  | none => true
  | some ec =>
    match parseCert ec.cert with
    | Except.error _ => true
    | Except.ok crt =>
      if now > crt.notAfterMs - renewWindow then true
      else if ¬ commonName = crt.subjectCommonName then true
      else if ¬ _arraysMatch domains crt.altNames = true then true
      else if ¬ useStaging = ec.staging then true
      else false

/-- Spec-side definition (following the claim wording of C2/C3): two domain
lists are equal "as unordered sets", order-insensitively and
duplicate-insensitively. -/
def specSetEq (l1 l2 : List String) : Prop :=
  (∀ x ∈ l1, x ∈ l2) ∧ (∀ x ∈ l2, x ∈ l1)

/-- Spec-side definition following C2's wording: must-renew holds iff no
existing collection, or parse failure, or expiry within the renewal window, or
common-name change, or the domain lists differ as unordered sets, or the
staging flag differs. -/
def specMustRenewSets (parseCert : String → Except String ParsedCert) (now : Int)
    (useStaging : Bool) (commonName : String) (domains : List String)
    (existingCollection : Option ExistingCollection) : Prop :=
  match existingCollection with
  | none => True
  | some ec =>
    match parseCert ec.cert with
    | Except.error _ => True
    | Except.ok crt =>
      now > crt.notAfterMs - renewWindow
        ∨ ¬ commonName = crt.subjectCommonName
        ∨ ¬ specSetEq domains crt.altNames
        ∨ ¬ useStaging = ec.staging

/-- Amended spec-side renewal predicate: as `specMustRenewSets`, but the domain
comparison is as unordered multisets (permutation of lists), matching the
length-checked sorted comparison the code actually performs. -/
def specMustRenewMultiset (parseCert : String → Except String ParsedCert) (now : Int)
    (useStaging : Bool) (commonName : String) (domains : List String)
    (existingCollection : Option ExistingCollection) : Prop :=
  match existingCollection with
  | none => True
  | some ec =>
    match parseCert ec.cert with
    | Except.error _ => True
    | Except.ok crt =>
      now > crt.notAfterMs - renewWindow
        ∨ ¬ commonName = crt.subjectCommonName
        ∨ ¬ domains.Perm crt.altNames
        ∨ ¬ useStaging = ec.staging

/-- Possible shapes of the `responsedata` value that an `infoDnsZone` probe
returns through `apiCall(..., throwOnError = false)`: `null` (the API call
failed with a non-2xxx status), a non-object value, or an object whose `name`
field is absent (`object none`, the empty `{}` response Netcup returns for
non-existent subdomains) or present with the given string value. -/
inductive ProbeResult where
  | nullResult : ProbeResult
  | nonObject : ProbeResult
  | object : Option String → ProbeResult
deriving DecidableEq

/-- Model of the acceptance test in `findZone`:
`result !== null && typeof result === 'object' && result.name` (a `name` field
holding a nonempty string is truthy; `null`, non-objects, a missing `name`
field and the empty string are all falsy). -/
def truthyName : ProbeResult → Bool
  | ProbeResult.object (some n) => !(n == "")
  | _ => false

/-- Spec-side acceptance predicate, following the wording of C5: the probe
result is a non-null object containing a non-empty zone-name field. -/
def specAccepts (r : ProbeResult) : Prop :=
  ∃ n, r = ProbeResult.object (some n) ∧ ¬ n = ""

/-- Candidate `candidateAt parts i` is the probe candidate of loop index `i` in
`findZone`: `parts.slice(i).join('.')`. -/
def candidateAt (parts : List String) (i : Nat) : String :=
  joinDot (parts.drop i)

/-- Model of JS `parts.slice(0, i).join('.') || '@'`: the record name relative
to the zone, with the falsy empty string replaced by `"@"`. -/
def relName (pre : List String) : String :=
  if joinDot pre = "" then "@" else joinDot pre

/-- The loop of `findZone` (`for (let i = 1; i < parts.length - 1; i++)`),
written structurally: `pre` holds `parts.slice(0, i)` and `suf` holds
`parts.slice(i)`; the loop runs while `suf` still has at least two labels.
`probe` supplies the outcome of the suppressed-error `infoDnsZone` call
(`Except.error` models a transport error that still throws). The result pairs
the `{rootDomain, hostname}` outcome with the ordered list of candidates that
were actually probed. -/
def findZoneGo (probe : String → Except String ProbeResult) (parts : List String) :
    List String → List String → Except String (String × String) × List String
  | pre, s0 :: s1 :: srest =>
    let candidate := joinDot (s0 :: s1 :: srest)
    match probe candidate with
    | Except.error e => (Except.error e, [candidate])
    | Except.ok r =>
      if truthyName r = true then
        (Except.ok (candidate, relName pre), [candidate])
      else
        let next := findZoneGo probe parts (pre ++ [s0]) (s1 :: srest)
        (next.1, candidate :: next.2)
  | _, _ =>
    (Except.ok (joinDot (parts.drop (parts.length - 2)),
                relName (parts.take (parts.length - 2))), [])

/-- Model of `findZone(fullDomain, ...)`: split on dots, probe suffix
candidates from most specific to least specific, and fall back to the
last-two-labels heuristic when no candidate is accepted. The returned pair is
(`Except` outcome of `{rootDomain, hostname}`, list of probed candidates in
order). -/
def findZone (probe : String → Except String ProbeResult) (fullDomain : String) :
    Except String (String × String) × List String :=
  match splitDot fullDomain with
  | [] => (Except.ok ("", "@"), [])
  | p :: rest => findZoneGo probe (p :: rest) [p] rest

/-- Outcome of one `resolveTxt` call in a polling loop: the resolver threw
(`failure`, e.g. ENOTFOUND/ENODATA) or returned a list of TXT record value
lists (`success`). -/
inductive LookupResult where
  | failure : LookupResult
  | success : List (List String) → LookupResult
deriving DecidableEq

/-- Outcome of a propagation polling loop: confirmed at a given attempt, or
the terminal not-visible error carrying the host name and the attempt budget
that the thrown `Error` message reports. -/
inductive PollOutcome where
  | confirmed : Nat → PollOutcome
  | notVisible : String → Nat → PollOutcome
deriving DecidableEq

/-- The error message thrown by the newest `set` after the polling budget is
exhausted: `` `[acme-dns-01-netcup] DNS record "${dnsHost}" not visible after
${maxAttempts} attempts` ``. -/
def part001TimeoutMsg (dnsHost : String) (maxAttempts : Nat) : String :=
  "[acme-dns-01-netcup] DNS record \"" ++ dnsHost ++ "\" not visible after "
    ++ Nat.repr maxAttempts ++ " attempts"

/-- The error message thrown by the authoritative-NS variant of `set` after the
polling budget is exhausted (includes the total minutes,
`maxAttempts * retryDelayMs / 60000` with `retryDelayMs = 10000`). -/
def netcupTimeoutMsg (dnsHost : String) (maxAttempts : Nat) : String :=
  "[acme-dns-01-netcup] TXT record \"" ++ dnsHost
    ++ "\" not visible on authoritative NS after " ++ Nat.repr maxAttempts
    ++ " attempts (" ++ Nat.repr (maxAttempts * 10000 / 60000) ++ " min)"

/-- Does a lookup result confirm the record, i.e. `results.flat()` contains the
expected `dnsAuthorization` value? (This is the check the authoritative-NS
variant of `set`, and `get`, perform on a successful lookup.) -/
def confirmsLookup (dnsAuthorization : String) : LookupResult → Bool
  | LookupResult.failure => false
  | LookupResult.success values => values.flatten.contains dnsAuthorization

/-- The polling loop of `set` in the newest handler source
(`for (let attempt = 1; attempt <= maxAttempts; attempt++) ...`), embedded with
the remaining attempt budget as the recursion fuel. Reproduced faithfully from
the source: a successful `resolveTxt` is followed by an unconditional block
that returns success, WITHOUT checking the returned values against
`dnsAuthorization` (the `TXT not yet visible` branch below it is unreachable).
The second component counts the lookups actually performed. -/
def setPollPart001Go (lookup : Nat → LookupResult) (host : String) (maxAttempts : Nat) :
    Nat → Nat → PollOutcome × Nat
  | _, 0 => (PollOutcome.notVisible host maxAttempts, 0)
  | attempt, remaining + 1 =>
    match lookup attempt with
    | LookupResult.success _ => (PollOutcome.confirmed attempt, 1)
    | LookupResult.failure =>
      let next := setPollPart001Go lookup host maxAttempts (attempt + 1) remaining
      (next.1, next.2 + 1)

/-- The full polling phase of the newest `set`: attempts `1..maxAttempts`. -/
def setPollPart001 (lookup : Nat → LookupResult) (host : String) (maxAttempts : Nat) :
    PollOutcome × Nat :=
  setPollPart001Go lookup host maxAttempts 1 maxAttempts

/-- The polling loop of `set` in the authoritative-NS handler variant
(`build/lib/acme-dns-01-netcup.js` lines 656-671): on a successful lookup it
returns success only when `results.flat().includes(dnsAuthorization)`,
otherwise (and on a thrown lookup) it retries. -/
def setPollNetcupGo (lookup : Nat → LookupResult) (dnsAuthorization host : String)
    (maxAttempts : Nat) : Nat → Nat → PollOutcome × Nat
  | _, 0 => (PollOutcome.notVisible host maxAttempts, 0)
  | attempt, remaining + 1 =>
    match lookup attempt with
    | LookupResult.success values =>
      if values.flatten.contains dnsAuthorization then (PollOutcome.confirmed attempt, 1)
      else
        let next := setPollNetcupGo lookup dnsAuthorization host maxAttempts (attempt + 1) remaining
        (next.1, next.2 + 1)
    | LookupResult.failure =>
      let next := setPollNetcupGo lookup dnsAuthorization host maxAttempts (attempt + 1) remaining
      (next.1, next.2 + 1)

/-- The full polling phase of the authoritative-NS `set`: attempts
`1..maxAttempts`. -/
def setPollNetcup (lookup : Nat → LookupResult) (dnsAuthorization host : String)
    (maxAttempts : Nat) : PollOutcome × Nat :=
  setPollNetcupGo lookup dnsAuthorization host maxAttempts 1 maxAttempts

/-- The `maxAttempts` constant of the newest `set` polling loop (source constant `30`). -/
def part001MaxAttempts : Nat := 30

/-- The error message of the failed-status branch of `apiCall`:
`` `Netcup API error [${statuscode}]: ${longmessage ?? shortmessage ?? 'unknown error'}` ``. -/
def netcupApiErrorMsg (statuscode : Int) (longmessage shortmessage : Option String) : String :=
  "Netcup API error [" ++ Int.repr statuscode ++ "]: "
    ++ longmessage.getD (shortmessage.getD "unknown error")

/-- Model of the tail of `apiCall(action, param, throwOnError)` after a JSON
response `{statuscode, longmessage?, shortmessage?, responsedata}` has been
received: `isSuccess = statuscode >= 2000 && statuscode < 3000`; throw on
failure only when `throwOnError`; return `responsedata` on success and `null`
(modelled `none`) otherwise. -/
def apiCallResult {α : Type} (statuscode : Int) (longmessage shortmessage : Option String)
    (responsedata : α) (throwOnError : Bool) : Except String (Option α) :=
  let isSuccess : Bool := decide (2000 ≤ statuscode) && decide (statuscode < 3000)
  if (!isSuccess && throwOnError) = true then
    Except.error (netcupApiErrorMsg statuscode longmessage shortmessage)
  else if isSuccess = true then Except.ok (some responsedata)
  else Except.ok none

/-- One DNS record as returned by `infoDnsRecords`. -/
structure DnsRecord where
  id : Option String
  hostname : String
  type : String
  destination : String
  deleterecord : Bool
deriving DecidableEq

/-- Remote events performed by a handler operation, recorded in traces. -/
inductive OpEvent where
  | loginCall : OpEvent
  | zoneProbeCall : String → OpEvent
  | infoRecordsCall : OpEvent
  | updateRecordsCall : OpEvent
  | logoutCall : OpEvent
  | txtLookup : Nat → OpEvent
deriving DecidableEq

/-- Environment supplying the outcomes of all external effects of one handler
operation: login, zone probes, record update, record listing, the logout API
call, and DNS TXT lookups. -/
structure NetcupEnv where
  loginResult : Except String String
  zoneProbe : String → Except String ProbeResult
  updateResult : Except String Unit
  infoRecords : Except String (Option (List DnsRecord))
  deleteResult : Except String Unit
  logoutResult : Except String Unit
  lookup : Nat → LookupResult
  getLookup : LookupResult

/-- Model of the `logout` helper: the inner `apiCall('logout', ...)` outcome is
given; its errors are swallowed by the `catch` block, so `logout` always
returns normally. -/
def logout (apiResult : Except String Unit) : Except String Unit :=
  match apiResult with
  | Except.ok _ => Except.ok ()
  | Except.error _ => Except.ok ()

/-- The logout step as it appears in a trace: the `logout` helper is invoked
(one `logoutCall` event) and its result is `logout` of the raw API outcome. -/
def logoutOp (apiResult : Except String Unit) : Except String Unit × List OpEvent :=
  (logout apiResult, [OpEvent.logoutCall])

/-- JS try-finally semantics: the finally block always runs; an
exception thrown by the finally block replaces the body's outcome, otherwise
the body's outcome (value or exception) stands. -/
def jsTryFinally {α : Type} (body : Except String α × List OpEvent)
    (fin : Except String Unit × List OpEvent) : Except String α × List OpEvent :=
  (match fin.1 with
   | Except.error e => Except.error e
   | Except.ok _ => body.1,
   body.2 ++ fin.2)

/-- The `try` block of the newest `set` between login and the `finally`
logout: resolve the zone, then `updateDnsRecords` with the single TXT record. -/
def setBody (env : NetcupEnv) (dnsHost : String) : Except String Unit × List OpEvent :=
  let fz := findZone env.zoneProbe dnsHost
  let probeEvents := fz.2.map OpEvent.zoneProbeCall
  match fz.1 with
  | Except.error e => (Except.error e, probeEvents)
  | Except.ok _zone =>
    match env.updateResult with
    | Except.error e => (Except.error e, probeEvents ++ [OpEvent.updateRecordsCall])
    | Except.ok _ => (Except.ok (), probeEvents ++ [OpEvent.updateRecordsCall])

/-- Model of the newest handler's `set(data)`: login (failures logged and
rethrown), then the zone-resolution/record-write block with a guaranteed
`finally` logout, then the DNS propagation polling loop (30 attempts) whose
exhaustion throws the descriptive timeout error. The trace records every
remote action in order. -/
def setOp (env : NetcupEnv) (dnsHost dnsAuthorization : String) :
    Except String Unit × List OpEvent :=
  match env.loginResult with
  | Except.error e => (Except.error e, [OpEvent.loginCall])
  | Except.ok _sid =>
    let afterSession := jsTryFinally (setBody env dnsHost) (logoutOp env.logoutResult)
    match afterSession.1 with
    | Except.error e => (Except.error e, OpEvent.loginCall :: afterSession.2)
    | Except.ok _ =>
      let poll := setPollPart001 env.lookup dnsHost part001MaxAttempts
      let pollEvents := (List.range' 1 poll.2).map OpEvent.txtLookup
      (match poll.1 with
       | PollOutcome.confirmed _ => Except.ok ()
       | PollOutcome.notVisible h n => Except.error (part001TimeoutMsg h n),
       OpEvent.loginCall :: afterSession.2 ++ pollEvents)

/-- Model of the newest handler's `get(data)`: a single `resolveTxt` with the
found-check; lookup failures are caught and yield `null`. No session is
opened. -/
def getOp (env : NetcupEnv) (dnsHost dnsAuthorization : String) :
    Option String × List OpEvent :=
  match env.getLookup with
  | LookupResult.failure => (none, [OpEvent.txtLookup 1])
  | LookupResult.success results =>
    (if results.flatten.contains dnsAuthorization then some dnsAuthorization else none,
     [OpEvent.txtLookup 1])

/-- The `try` block of `remove` between login and the `finally` logout:
resolve the zone, list records with errors suppressed, select the matching TXT
records, and submit the deletion unless nothing matched. -/
def removeBody (env : NetcupEnv) (dnsHost dnsAuthorization : String) :
    Except String Unit × List OpEvent :=
  let fz := findZone env.zoneProbe dnsHost
  let probeEvents := fz.2.map OpEvent.zoneProbeCall
  match fz.1 with
  | Except.error e => (Except.error e, probeEvents)
  | Except.ok zoneHost =>
    match env.infoRecords with
    | Except.error e => (Except.error e, probeEvents ++ [OpEvent.infoRecordsCall])
    | Except.ok recordsData =>
      let records := recordsData.getD []
      let toDelete := (records.filter (fun r =>
        r.type == "TXT" && r.hostname == zoneHost.2 && r.destination == dnsAuthorization)).map
          (fun r => { r with deleterecord := true })
      if toDelete.isEmpty then (Except.ok (), probeEvents ++ [OpEvent.infoRecordsCall])
      else
        match env.deleteResult with
        | Except.error e =>
          (Except.error e, probeEvents ++ [OpEvent.infoRecordsCall, OpEvent.updateRecordsCall])
        | Except.ok _ =>
          (Except.ok (), probeEvents ++ [OpEvent.infoRecordsCall, OpEvent.updateRecordsCall])

/-- Model of the newest handler's `remove(data)`: login, the record-deletion
block, and a guaranteed `finally` logout. -/
def removeOp (env : NetcupEnv) (dnsHost dnsAuthorization : String) :
    Except String Unit × List OpEvent :=
  match env.loginResult with
  | Except.error e => (Except.error e, [OpEvent.loginCall])
  | Except.ok _sid =>
    let afterSession := jsTryFinally (removeBody env dnsHost dnsAuthorization)
      (logoutOp env.logoutResult)
    (afterSession.1, OpEvent.loginCall :: afterSession.2)

/-- The credential words of the masking regex `/api|key|secret|password|token/i`
used by `onReady` and `initChallenges`. -/
def credentialWords : List String := ["api", "key", "secret", "password", "token"]

/-- Does `needle` occur as a contiguous subsequence of `hay`? (Executable
substring test used to model regex substring matching.) -/
def charsHaveSub (needle : List Char) : List Char → Bool
  | [] => needle.isEmpty
  | c :: rest => needle.isPrefixOf (c :: rest) || charsHaveSub needle rest

/-- Model of the case-insensitive regex test: some credential word occurs as a
substring of the lower-cased key. -/
def isCredentialKey (key : String) : Bool :=
  credentialWords.any (fun w => charsHaveSub w.data (key.data.map Char.toLower))

/-- Model of the masking loops of `onReady` / `initChallenges`: every entry
whose key matches the credential pattern and whose value is a nonempty string
is replaced by `"***"` before the object is logged. -/
def maskConfig (cfg : List (String × String)) : List (String × String) :=
  cfg.map (fun kv => if isCredentialKey kv.1 = true ∧ ¬ kv.2 = "" then (kv.1, "***") else kv)

/-- The log line emitted by `create(options)` in the newest handler source:
`` log.warn(`[acme-dns-01-netcup] create() called, customerNumber="${customerNumber}"`) ``. -/
def createLogMessage (customerNumber : String) : String :=
  "[acme-dns-01-netcup] create() called, customerNumber=\"" ++ customerNumber ++ "\""

/-! Section: Properties of the split/join embedding -/

theorem splitCharAux_ne_nil (sep : Char) (cs : List Char) : splitCharAux sep cs ≠ [] := by
  induction cs with
  | nil => simp [splitCharAux]
  | cons c rest ih =>
    rcases h : splitCharAux sep rest with _ | ⟨hd, tl⟩
    · simp [splitCharAux, h]
    · simp only [splitCharAux, h]
      split <;> simp

theorem charJoinDot_splitCharAux (cs : List Char) :
    charJoinDot (splitCharAux '.' cs) = cs := by
  induction cs with
  | nil => rfl
  | cons c rest ih =>
    rcases h : splitCharAux '.' rest with _ | ⟨hd, tl⟩
    · exact absurd h (splitCharAux_ne_nil '.' rest)
    · rw [h] at ih
      have hexp : splitCharAux '.' (c :: rest)
          = if c = '.' then [] :: hd :: tl else (c :: hd) :: tl := by
        simp only [splitCharAux, h]
      rw [hexp]
      by_cases hc : c = '.'
      · subst hc
        rw [if_pos rfl]
        simpa [charJoinDot] using ih
      · rw [if_neg hc]
        rcases tl with _ | ⟨x, tl2⟩ <;>
          simpa [charJoinDot] using congrArg (c :: ·) ih

theorem joinDot_data (ls : List String) :
    (joinDot ls).data = charJoinDot (ls.map String.data) := by
  induction ls with
  | nil => rfl
  | cons a tail ih =>
    rcases tail with _ | ⟨b, t⟩
    · rfl
    · simp only [joinDot, List.map, charJoinDot, String.data_append]
      simp only [List.map] at ih
      rw [ih]
      simp

theorem joinDot_splitDot (s : String) : joinDot (splitDot s) = s := by
  apply String.ext
  rw [joinDot_data]
  have hmk : (splitDot s).map String.data = splitCharAux '.' s.data := by
    simp only [splitDot, List.map_map]
    have : String.data ∘ String.mk = id := rfl
    rw [this, List.map_id]
  rw [hmk, charJoinDot_splitCharAux]

theorem joinDot_cons_of_ne_nil (a : String) (m : List String) (hm : m ≠ []) :
    joinDot (a :: m) = a ++ "." ++ joinDot m := by
  rcases m with _ | ⟨b, t⟩
  · exact absurd rfl hm
  · rfl

theorem joinDot_append (l m : List String) (hl : l ≠ []) (hm : m ≠ []) :
    joinDot (l ++ m) = joinDot l ++ "." ++ joinDot m := by
  induction l with
  | nil => exact absurd rfl hl
  | cons a l' ih =>
    rcases l' with _ | ⟨b, t⟩
    · simpa using joinDot_cons_of_ne_nil a m hm
    · have h1 : joinDot (a :: b :: t ++ m) = a ++ "." ++ joinDot (b :: t ++ m) := by
        exact joinDot_cons_of_ne_nil a (b :: t ++ m) (by simp)
      have h2 := ih (by simp)
      simp only [List.cons_append] at h1 ⊢
      rw [h1]
      simp only [List.cons_append] at h2
      rw [h2, joinDot_cons_of_ne_nil a (b :: t) (by simp)]
      simp [String.ext_iff, String.data_append, List.append_assoc]

theorem joinDot_head_ne (a : String) (l : List String) (ha1 : a ≠ "") (ha2 : a ≠ "@") :
    joinDot (a :: l) ≠ "" ∧ joinDot (a :: l) ≠ "@" := by
  rcases l with _ | ⟨b, t⟩
  · exact ⟨ha1, ha2⟩
  · rw [joinDot_cons_of_ne_nil a (b :: t) (by simp)]
    constructor
    · intro h
      have := congrArg String.data h
      simp [String.data_append] at this
    · intro h
      have hd := congrArg String.data h
      simp only [String.data_append] at hd
      have : ('.' : Char) ∈ a.data ++ ".".data ++ (joinDot (b :: t)).data := by
        simp [show (".".data : List Char) = ['.'] from rfl]
      rw [hd] at this
      simp only [show ("@".data : List Char) = ['@'] from rfl, List.mem_singleton] at this
      exact absurd this (by decide)

/-! Section: the JS sort comparator is a linear order; `_arraysMatch` decides
permutation equivalence -/

theorem charListLt_irrefl (l : List Char) : charListLt l l = false := by
  induction l with
  | nil => rfl
  | cons a as ih => simp [charListLt, ih]

theorem charListLt_asymm (l m : List Char) (h : charListLt l m = true) :
    charListLt m l = false := by
  induction l generalizing m with
  | nil =>
    rcases m with _ | ⟨b, bs⟩
    · simp [charListLt] at h
    · rfl
  | cons a as ih =>
    rcases m with _ | ⟨b, bs⟩
    · simp [charListLt] at h
    · simp only [charListLt] at h ⊢
      by_cases hab : a < b
      · rw [if_neg (asymm hab), if_pos hab]
      · rw [if_neg hab] at h
        by_cases hba : b < a
        · rw [if_pos hba] at h
          exact absurd h (by simp)
        · rw [if_neg hba] at h
          rw [if_neg hba, if_neg hab]
          exact ih bs h

theorem charListLt_conn (l m : List Char) (h1 : charListLt l m = false)
    (h2 : charListLt m l = false) : l = m := by
  induction l generalizing m with
  | nil =>
    rcases m with _ | ⟨b, bs⟩
    · rfl
    · simp [charListLt] at h1
  | cons a as ih =>
    rcases m with _ | ⟨b, bs⟩
    · simp [charListLt] at h2
    · simp only [charListLt] at h1 h2
      by_cases hab : a < b
      · rw [if_pos hab] at h1
        exact absurd h1 (by simp)
      · by_cases hba : b < a
        · rw [if_pos hba] at h2
          exact absurd h2 (by simp)
        · rw [if_neg hab, if_neg hba] at h1
          rw [if_neg hba, if_neg hab] at h2
          have hab2 : a = b := le_antisymm (not_lt.mp hba) (not_lt.mp hab)
          rw [hab2, ih bs h1 h2]

theorem charListLt_trans (l m n : List Char) (h1 : charListLt l m = true)
    (h2 : charListLt m n = true) : charListLt l n = true := by
  induction l generalizing m n with
  | nil =>
    rcases n with _ | ⟨c, cs⟩
    · rcases m with _ | ⟨b, bs⟩ <;> simp [charListLt] at h1 h2
    · rfl
  | cons a as ih =>
    rcases m with _ | ⟨b, bs⟩
    · simp [charListLt] at h1
    · rcases n with _ | ⟨c, cs⟩
      · simp [charListLt] at h2
      · simp only [charListLt] at h1 h2 ⊢
        by_cases hab : a < b
        · by_cases hbc : b < c
          · rw [if_pos (lt_trans hab hbc)]
          · rw [if_neg hbc] at h2
            by_cases hcb : c < b
            · rw [if_pos hcb] at h2
              exact absurd h2 (by simp)
            · have hbc2 : b = c := le_antisymm (not_lt.mp hcb) (not_lt.mp hbc)
              rw [if_pos (hbc2 ▸ hab)]
        · rw [if_neg hab] at h1
          by_cases hba : b < a
          · rw [if_pos hba] at h1
            exact absurd h1 (by simp)
          · rw [if_neg hba] at h1
            have hab2 : a = b := le_antisymm (not_lt.mp hba) (not_lt.mp hab)
            subst hab2
            by_cases hac : a < c
            · rw [if_pos hac]
            · rw [if_neg hac] at h2 ⊢
              by_cases hca : c < a
              · rw [if_pos hca] at h2
                exact absurd h2 (by simp)
              · rw [if_neg hca] at h2 ⊢
                exact ih bs cs h1 h2

theorem jsLeP_total (a b : String) : jsLeP a b ∨ jsLeP b a := by
  unfold jsLeP
  rcases h : charListLt b.data a.data with _ | _
  · exact Or.inl rfl
  · exact Or.inr (charListLt_asymm _ _ h)

theorem jsLeP_trans_thm (a b c : String) (h1 : jsLeP a b) (h2 : jsLeP b c) : jsLeP a c := by
  unfold jsLeP at h1 h2 ⊢
  rcases h : charListLt c.data a.data with _ | _
  · rfl
  · exfalso
    by_cases hcb : charListLt c.data b.data = true
    · rw [h2] at hcb; exact absurd hcb (by simp)
    · have hcb2 : charListLt c.data b.data = false := by
        rcases hx : charListLt c.data b.data with _ | _
        · rfl
        · exact absurd hx hcb
      by_cases hbc : charListLt b.data c.data = true
      · have := charListLt_trans _ _ _ hbc h
        rw [h1] at this
        exact absurd this (by simp)
      · have hbc2 : charListLt b.data c.data = false := by
          rcases hx : charListLt b.data c.data with _ | _
          · rfl
          · exact absurd hx hbc
        have : c.data = b.data := charListLt_conn _ _ hcb2 hbc2
        rw [this] at h
        rw [h1] at h
        exact absurd h (by simp)

theorem jsLeP_antisymm_thm (a b : String) (h1 : jsLeP a b) (h2 : jsLeP b a) : a = b := by
  unfold jsLeP at h1 h2
  exact String.ext (charListLt_conn a.data b.data h2 h1)

theorem _arraysMatch_iff_perm (arr1 arr2 : List String) :
    _arraysMatch arr1 arr2 = true ↔ arr1.Perm arr2 := by
  haveI hT : IsTotal String jsLeP := ⟨jsLeP_total⟩
  haveI hTr : IsTrans String jsLeP := ⟨jsLeP_trans_thm⟩
  haveI hA : IsAntisymm String jsLeP := ⟨jsLeP_antisymm_thm⟩
  unfold _arraysMatch
  constructor
  · intro h
    split at h
    · next heq => exact heq ▸ List.Perm.refl _
    · split at h
      · exact absurd h (by simp)
      · have hs : List.insertionSort jsLeP arr1 = List.insertionSort jsLeP arr2 :=
          of_decide_eq_true h
        have p1 := (List.perm_insertionSort jsLeP arr1).symm
        rw [hs] at p1
        exact p1.trans (List.perm_insertionSort jsLeP arr2)
  · intro h
    split
    · rfl
    · split
      · next hlen => exact absurd h.length_eq hlen
      · apply decide_eq_true
        have p : List.Perm (List.insertionSort jsLeP arr1) (List.insertionSort jsLeP arr2) :=
          (List.perm_insertionSort jsLeP arr1).trans
            (h.trans (List.perm_insertionSort jsLeP arr2).symm)
        exact List.eq_of_perm_of_sorted p (List.sorted_insertionSort jsLeP arr1)
          (List.sorted_insertionSort jsLeP arr2)

/-! Section: findZone: reconstruction and probing order -/

theorem findZone_fallback_reconstructs (parts : List String) (h3 : 3 ≤ parts.length)
    (hhead : ∀ a, parts.head? = some a → a ≠ "" ∧ a ≠ "@") :
    joinDot parts =
      (if relName (parts.take (parts.length - 2)) = "@"
       then joinDot (parts.drop (parts.length - 2))
       else relName (parts.take (parts.length - 2)) ++ "." ++
         joinDot (parts.drop (parts.length - 2))) := by
  rcases parts with _ | ⟨p0, rest⟩
  · simp at h3
  · have hp := hhead p0 rfl
    have hk : (p0 :: rest).length - 2 = ((p0 :: rest).length - 3) + 1 := by
      simp only [List.length_cons] at h3 ⊢
      omega
    have htake : (p0 :: rest).take ((p0 :: rest).length - 2)
        = p0 :: rest.take ((p0 :: rest).length - 3) := by
      rw [hk, List.take_succ_cons]
    have hne := joinDot_head_ne p0 (rest.take ((p0 :: rest).length - 3)) hp.1 hp.2
    have hrel : relName ((p0 :: rest).take ((p0 :: rest).length - 2))
        = joinDot ((p0 :: rest).take ((p0 :: rest).length - 2)) := by
      rw [relName, htake, if_neg hne.1]
    rw [hrel]
    rw [if_neg (by rw [htake]; exact hne.2)]
    have hdropne : (p0 :: rest).drop ((p0 :: rest).length - 2) ≠ [] := by
      apply List.ne_nil_of_length_pos
      rw [List.length_drop]
      simp only [List.length_cons] at h3 ⊢
      omega
    have htakene : (p0 :: rest).take ((p0 :: rest).length - 2) ≠ [] := by
      rw [htake]; simp
    rw [← joinDot_append _ _ htakene hdropne, List.take_append_drop]

theorem findZoneGo_reconstructs (probe : String → Except String ProbeResult)
    (parts : List String) (h3 : 3 ≤ parts.length)
    (hhead : ∀ a, parts.head? = some a → a ≠ "" ∧ a ≠ "@") :
    ∀ suf pre zone rel, parts = pre ++ suf → pre ≠ [] →
      (findZoneGo probe parts pre suf).1 = Except.ok (zone, rel) →
      joinDot parts = (if rel = "@" then zone else rel ++ "." ++ zone) := by
  intro suf
  induction suf with
  | nil =>
    intro pre zone rel hps hpre hres
    simp only [findZoneGo] at hres
    obtain ⟨hz, hr⟩ := Prod.mk.injEq .. ▸ (Except.ok.inj hres)
    rw [← hz, ← hr]
    exact findZone_fallback_reconstructs parts h3 hhead
  | cons s0 tail ih =>
    rcases tail with _ | ⟨s1, srest⟩
    · intro pre zone rel hps hpre hres
      simp only [findZoneGo] at hres
      obtain ⟨hz, hr⟩ := Prod.mk.injEq .. ▸ (Except.ok.inj hres)
      rw [← hz, ← hr]
      exact findZone_fallback_reconstructs parts h3 hhead
    · intro pre zone rel hps hpre hres
      rcases pre with _ | ⟨p0, pre'⟩
      · exact absurd rfl hpre
      have hp := hhead p0 (by rw [hps]; rfl)
      simp only [findZoneGo] at hres
      split at hres
      · exact absurd hres (by simp)
      · split at hres
        · obtain ⟨hz, hr⟩ := Prod.mk.injEq .. ▸ (Except.ok.inj hres)
          have hne := joinDot_head_ne p0 pre' hp.1 hp.2
          have hrel : relName (p0 :: pre') = joinDot (p0 :: pre') := by
            rw [relName, if_neg hne.1]
          rw [← hz, ← hr, hrel, if_neg hne.2, hps,
            joinDot_append _ _ (by simp) (by simp)]
        · exact ih (p0 :: pre' ++ [s0]) zone rel (by rw [hps]; simp) (by simp) hres

theorem truthyName_iff (r : ProbeResult) : truthyName r = true ↔ specAccepts r := by
  constructor
  · intro h
    rcases r with _ | _ | n
    · simp [truthyName] at h
    · simp [truthyName] at h
    · rcases n with _ | n
      · simp [truthyName] at h
      · exact ⟨n, rfl, by simpa [truthyName] using h⟩
  · rintro ⟨n, rfl, hn⟩
    simpa [truthyName] using hn

theorem findZoneGo_accepts (probe : String → Except String ProbeResult)
    (parts : List String) :
    ∀ suf pre i, parts = pre ++ suf → pre.length ≤ i → i + 1 < parts.length →
      (∀ j, pre.length ≤ j → j < i →
        ∃ rj, probe (candidateAt parts j) = Except.ok rj ∧ truthyName rj = false) →
      (∃ ri, probe (candidateAt parts i) = Except.ok ri ∧ truthyName ri = true) →
      findZoneGo probe parts pre suf =
        (Except.ok (candidateAt parts i, relName (parts.take i)),
         (List.range' pre.length (i + 1 - pre.length)).map (candidateAt parts)) := by
  intro suf
  induction suf with
  | nil =>
    intro pre i hps hle hlt _ _
    exfalso
    rw [hps] at hlt
    simp at hlt
    omega
  | cons s0 tail ih =>
    rcases tail with _ | ⟨s1, srest⟩
    · intro pre i hps hle hlt _ _
      exfalso
      rw [hps] at hlt
      simp at hlt
      omega
    · intro pre i hps hle hlt hrej haccept
      have hcand : candidateAt parts pre.length = joinDot (s0 :: s1 :: srest) := by
        rw [candidateAt, hps, List.drop_left]
      by_cases hi : pre.length = i
      · obtain ⟨ri, hpi, htri⟩ := haccept
        rw [← hi, hcand] at hpi
        simp only [findZoneGo, hpi]
        rw [if_pos htri]
        have htake : parts.take i = pre := by
          rw [← hi, hps, List.take_left]
        have hone : i + 1 - pre.length = 1 := by omega
        rw [htake, hone, List.range'_one, List.map_cons, List.map_nil, ← hi, hcand]
      · have hlt2 : pre.length < i := lt_of_le_of_ne hle hi
        obtain ⟨rj, hpj, htrj⟩ := hrej pre.length le_rfl hlt2
        rw [hcand] at hpj
        simp only [findZoneGo, hpj]
        rw [if_neg (by simp [htrj])]
        have hps2 : parts = (pre ++ [s0]) ++ (s1 :: srest) := by rw [hps]; simp
        have hrec := ih (pre ++ [s0]) i hps2 (by simp; omega) hlt
          (fun j hj1 hj2 => hrej j (by simp at hj1; omega) hj2) haccept
        rw [hrec]
        have hlen : (pre ++ [s0]).length = pre.length + 1 := by simp
        rw [hlen]
        have hr : i + 1 - pre.length = (i - pre.length) + 1 := by omega
        have hr2 : i + 1 - (pre.length + 1) = i - pre.length := by omega
        rw [hr, hr2, List.range'_succ, List.map_cons, hcand]

theorem findZoneGo_allRejected (probe : String → Except String ProbeResult)
    (parts : List String) :
    ∀ suf pre, parts = pre ++ suf →
      (∀ j, pre.length ≤ j → j + 1 < parts.length →
        ∃ rj, probe (candidateAt parts j) = Except.ok rj ∧ truthyName rj = false) →
      findZoneGo probe parts pre suf =
        (Except.ok (joinDot (parts.drop (parts.length - 2)),
                    relName (parts.take (parts.length - 2))),
         (List.range' pre.length (parts.length - 1 - pre.length)).map (candidateAt parts)) := by
  intro suf
  induction suf with
  | nil =>
    intro pre hps _
    have : parts.length - 1 - pre.length = 0 := by rw [hps]; simp
    rw [this]
    simp [findZoneGo]
  | cons s0 tail ih =>
    rcases tail with _ | ⟨s1, srest⟩
    · intro pre hps _
      have : parts.length - 1 - pre.length = 0 := by rw [hps]; simp
      rw [this]
      simp [findZoneGo]
    · intro pre hps hrej
      have hcand : candidateAt parts pre.length = joinDot (s0 :: s1 :: srest) := by
        rw [candidateAt, hps, List.drop_left]
      have hlen : parts.length = pre.length + (srest.length + 2) := by rw [hps]; simp
      obtain ⟨rj, hpj, htrj⟩ := hrej pre.length le_rfl (by omega)
      rw [hcand] at hpj
      simp only [findZoneGo, hpj]
      rw [if_neg (by simp [htrj])]
      have hps2 : parts = (pre ++ [s0]) ++ (s1 :: srest) := by rw [hps]; simp
      have hrec := ih (pre ++ [s0]) hps2
        (fun j hj1 hj2 => hrej j (by simp at hj1; omega) hj2)
      rw [hrec]
      have hl2 : (pre ++ [s0]).length = pre.length + 1 := by simp
      rw [hl2]
      have hr : parts.length - 1 - pre.length = (parts.length - 1 - (pre.length + 1)) + 1 := by
        omega
      rw [hr, List.range'_succ, List.map_cons, hcand]

/-! Section: Polling loops -/

theorem setPollNetcupGo_allFail (lookup : Nat → LookupResult)
    (dnsAuthorization host : String) (maxAttempts : Nat) :
    ∀ r attempt,
      (∀ i, attempt ≤ i → i < attempt + r → confirmsLookup dnsAuthorization (lookup i) = false) →
      setPollNetcupGo lookup dnsAuthorization host maxAttempts attempt r
        = (PollOutcome.notVisible host maxAttempts, r) := by
  intro r
  induction r with
  | zero => intro attempt _; rfl
  | succ r ih =>
    intro attempt h
    have h0 := h attempt le_rfl (by omega)
    have hrec := ih (attempt + 1) (fun i h1 h2 => h i (by omega) (by omega))
    cases hl : lookup attempt with
    | failure =>
      simp only [setPollNetcupGo, hl, hrec]
    | success values =>
      rw [hl] at h0
      simp only [confirmsLookup] at h0
      simp only [setPollNetcupGo, hl, h0, Bool.false_eq_true, if_false, hrec]

theorem setPollPart001Go_allFail (lookup : Nat → LookupResult)
    (host : String) (maxAttempts : Nat) :
    ∀ r attempt,
      (∀ i, attempt ≤ i → i < attempt + r → lookup i = LookupResult.failure) →
      setPollPart001Go lookup host maxAttempts attempt r
        = (PollOutcome.notVisible host maxAttempts, r) := by
  intro r
  induction r with
  | zero => intro attempt _; rfl
  | succ r ih =>
    intro attempt h
    have h0 := h attempt le_rfl (by omega)
    have hrec := ih (attempt + 1) (fun i h1 h2 => h i (by omega) (by omega))
    simp only [setPollPart001Go, h0, hrec]

/-- C1: in the newest handler source, the propagation polling loop inside `set`
reports success on ANY successful TXT lookup, without checking that the
returned values contain `dnsAuthorization`: the include-check block is
unconditional (`const results = await ...resolveTxt(dnsHost); { ... return
null; }`), leaving the "not yet visible" retry branch unreachable. On a lookup
that succeeds with only a wrong value, the loop reports success on attempt 1 —
contradicting the claim — while the authoritative-NS variant of `set`
(`build/lib/acme-dns-01-netcup.js` lines 656-671) correctly retries until
timeout on the same inputs. -/
theorem c1_part001_poll_ignores_value :
    setPollPart001 (fun _ => LookupResult.success [["wrong-token"]])
        "_acme-challenge.example.com" part001MaxAttempts
      = (PollOutcome.confirmed 1, 1)
    ∧ confirmsLookup "secret-token" (LookupResult.success [["wrong-token"]]) = false
    ∧ setPollNetcup (fun _ => LookupResult.success [["wrong-token"]]) "secret-token"
        "_acme-challenge.example.com" 120
      = (PollOutcome.notVisible "_acme-challenge.example.com" 120, 120) := by
  refine ⟨rfl, by decide, by decide⟩

/-- C6: when every one of the `maxAttempts` polling attempts fails to confirm
the record, the propagation wait of `set` performs exactly `maxAttempts` TXT
lookups (the second component of the result counts them) and terminates in the
`notVisible` outcome, which `set` converts into a thrown error whose message
names the host and the attempt count (the substring facts in the third
conjunct). Stated for the authoritative-NS polling loop (failure = lookup
error or value mismatch) and for the newest source's loop (where only a thrown
lookup fails to confirm). -/
theorem c6_poll_timeout_after_max_attempts :
    (∀ (lookup : Nat → LookupResult) (dnsAuthorization host : String) (maxAttempts : Nat),
      (∀ i, 1 ≤ i → i ≤ maxAttempts → confirmsLookup dnsAuthorization (lookup i) = false) →
      setPollNetcup lookup dnsAuthorization host maxAttempts
        = (PollOutcome.notVisible host maxAttempts, maxAttempts))
    ∧ (∀ (lookup : Nat → LookupResult) (host : String) (maxAttempts : Nat),
      (∀ i, 1 ≤ i → i ≤ maxAttempts → lookup i = LookupResult.failure) →
      setPollPart001 lookup host maxAttempts
        = (PollOutcome.notVisible host maxAttempts, maxAttempts))
    ∧ (∀ (host : String) (maxAttempts : Nat),
      host.data <:+: (netcupTimeoutMsg host maxAttempts).data
      ∧ (Nat.repr maxAttempts).data <:+: (netcupTimeoutMsg host maxAttempts).data
      ∧ host.data <:+: (part001TimeoutMsg host maxAttempts).data
      ∧ (Nat.repr maxAttempts).data <:+: (part001TimeoutMsg host maxAttempts).data) := by
  refine ⟨?_, ?_, ?_⟩
  · intro lookup dnsAuthorization host maxAttempts h
    exact setPollNetcupGo_allFail lookup dnsAuthorization host maxAttempts maxAttempts 1
      (fun i h1 h2 => h i h1 (by omega))
  · intro lookup host maxAttempts h
    exact setPollPart001Go_allFail lookup host maxAttempts maxAttempts 1
      (fun i h1 h2 => h i h1 (by omega))
  · intro host maxAttempts
    refine ⟨⟨"[acme-dns-01-netcup] TXT record \"".data,
      ("\" not visible on authoritative NS after " ++ Nat.repr maxAttempts
        ++ " attempts (" ++ Nat.repr (maxAttempts * 10000 / 60000) ++ " min)").data, ?_⟩,
      ⟨("[acme-dns-01-netcup] TXT record \"" ++ host
        ++ "\" not visible on authoritative NS after ").data,
       (" attempts (" ++ Nat.repr (maxAttempts * 10000 / 60000) ++ " min)").data, ?_⟩,
      ⟨"[acme-dns-01-netcup] DNS record \"".data,
       ("\" not visible after " ++ Nat.repr maxAttempts ++ " attempts").data, ?_⟩,
      ⟨("[acme-dns-01-netcup] DNS record \"" ++ host ++ "\" not visible after ").data,
       " attempts".data, ?_⟩⟩ <;>
      simp [netcupTimeoutMsg, part001TimeoutMsg, String.data_append, List.append_assoc]

/-- Witness for C6: with a resolver that throws on every attempt and a budget
of 3 attempts, both polling loops perform exactly 3 lookups and end in the
`notVisible` outcome carrying the host and the attempt count. -/
theorem c6_witness :
    setPollNetcup (fun _ => LookupResult.failure) "tok" "host.example.com" 3
      = (PollOutcome.notVisible "host.example.com" 3, 3)
    ∧ setPollPart001 (fun _ => LookupResult.failure) "host.example.com" 3
      = (PollOutcome.notVisible "host.example.com" 3, 3) :=
  ⟨c6_poll_timeout_after_max_attempts.1 (fun _ => LookupResult.failure) "tok"
      "host.example.com" 3 (fun _ _ _ => rfl),
   c6_poll_timeout_after_max_attempts.2.1 (fun _ => LookupResult.failure)
      "host.example.com" 3 (fun _ _ _ => rfl)⟩

/-! Section: Claim theorems: findZone -/

/-- C4 counterexample: the claim as stated quantifies over every `fullHost`
with at least 3 dot-separated labels. For `".x.y"` (labels `["", "x", "y"]`)
and for `"@.x.y"` (labels `["@", "x", "y"]`), with every probe rejected,
`findZone` returns `{zone := "x.y", relativeName := "@"}`, and the claimed
reconstruction `fullHost = zone` fails. -/
theorem c4_counterexample :
    (splitDot ".x.y").length = 3
    ∧ findZone (fun _ => Except.ok ProbeResult.nullResult) ".x.y"
      = (Except.ok ("x.y", "@"), ["x.y"])
    ∧ ".x.y" ≠ "x.y"
    ∧ (splitDot "@.x.y").length = 3
    ∧ findZone (fun _ => Except.ok ProbeResult.nullResult) "@.x.y"
      = (Except.ok ("x.y", "@"), ["x.y"])
    ∧ "@.x.y" ≠ "x.y" := by
  refine ⟨by decide, by decide, by decide, by decide, by decide, by decide⟩

/-- C4 (amended): for every input `fullHost` with at least 3 dot-separated
labels whose first label is neither empty nor the literal `"@"`, the
`{zone, relativeName}` pair returned by `findZone` (whether from an accepted
probe or from the fallback) reconstructs `fullHost` exactly:
`fullHost = zone` when `relativeName = "@"`, and
`fullHost = relativeName ++ "." ++ zone` otherwise. -/
theorem c4_findZone_reconstructs :
    ∀ (probe : String → Except String ProbeResult) (fullHost zone rel : String),
      3 ≤ (splitDot fullHost).length →
      (splitDot fullHost).head? ≠ some "" →
      (splitDot fullHost).head? ≠ some "@" →
      (findZone probe fullHost).1 = Except.ok (zone, rel) →
      fullHost = (if rel = "@" then zone else rel ++ "." ++ zone) := by
  intro probe fullHost zone rel h3 h1 h2 hres
  have hid := joinDot_splitDot fullHost
  rcases hsp : splitDot fullHost with _ | ⟨p0, rest⟩
  · rw [hsp] at h3
    simp at h3
  · rw [hsp] at h3 h1 h2 hid
    unfold findZone at hres
    rw [hsp] at hres
    have hhead : ∀ a, (p0 :: rest).head? = some a → a ≠ "" ∧ a ≠ "@" := by
      intro a ha
      simp only [List.head?_cons, Option.some.injEq] at ha
      subst ha
      exact ⟨fun h => h1 (by rw [h]; rfl), fun h => h2 (by rw [h]; rfl)⟩
    have hrec := findZoneGo_reconstructs probe (p0 :: rest) h3 hhead rest [p0] zone rel
      rfl (by simp) hres
    rw [← hid]
    exact hrec

/-- Witness for C4: for `"a.b.c"` with every probe rejected, `findZone` falls
back to `{zone := "b.c", relativeName := "a"}` and the reconstruction equation
holds. -/
theorem c4_witness :
    "a.b.c" = (if "a" = "@" then "b.c" else "a" ++ "." ++ "b.c") :=
  c4_findZone_reconstructs (fun _ => Except.ok ProbeResult.nullResult) "a.b.c" "b.c" "a"
    (by decide) (by decide) (by decide) (by decide)

/-- C5: `findZone` probes the candidates `parts.slice(i).join('.')` for
`i = 1 .. labelCount-2` in that order. First conjunct: if the probes of all
candidates before `i` return without being accepted (in particular `null`
results and empty objects are rejected and probing continues) and the probe of
candidate `i` returns a non-null object with a nonempty zone-name field
(`specAccepts`), then `findZone` returns candidate `i` as the zone together
with `parts.slice(0, i).join('.') || '@'` as the relative name, having probed
exactly the candidates `1 .. i` in order. Second conjunct: if every candidate's
probe returns without being accepted, `findZone` falls back to the last two
labels as the zone and the remaining labels as the relative name, having
probed every candidate in order. -/
theorem c5_findZone_first_accepted_or_fallback :
    (∀ (probe : String → Except String ProbeResult) (fullHost : String) (i : Nat),
      1 ≤ i → i + 1 < (splitDot fullHost).length →
      (∀ j, 1 ≤ j → j < i →
        ∃ rj, probe (candidateAt (splitDot fullHost) j) = Except.ok rj ∧ ¬ specAccepts rj) →
      (∃ ri, probe (candidateAt (splitDot fullHost) i) = Except.ok ri ∧ specAccepts ri) →
      findZone probe fullHost =
        (Except.ok (candidateAt (splitDot fullHost) i, relName ((splitDot fullHost).take i)),
         (List.range' 1 i).map (candidateAt (splitDot fullHost))))
    ∧ (∀ (probe : String → Except String ProbeResult) (fullHost : String),
      (∀ j, 1 ≤ j → j + 1 < (splitDot fullHost).length →
        ∃ rj, probe (candidateAt (splitDot fullHost) j) = Except.ok rj ∧ ¬ specAccepts rj) →
      findZone probe fullHost =
        (Except.ok (joinDot ((splitDot fullHost).drop ((splitDot fullHost).length - 2)),
                    relName ((splitDot fullHost).take ((splitDot fullHost).length - 2))),
         (List.range' 1 ((splitDot fullHost).length - 2)).map (candidateAt (splitDot fullHost)))) := by
  constructor
  · intro probe fullHost i h1 hlt hrej haccept
    have hrejT : ∀ j, 1 ≤ j → j < i →
        ∃ rj, probe (candidateAt (splitDot fullHost) j) = Except.ok rj
          ∧ truthyName rj = false := by
      intro j hj1 hj2
      obtain ⟨rj, hpr, hnacc⟩ := hrej j hj1 hj2
      refine ⟨rj, hpr, ?_⟩
      rcases htr : truthyName rj with _ | _
      · rfl
      · exact absurd ((truthyName_iff rj).mp htr) hnacc
    have haccT : ∃ ri, probe (candidateAt (splitDot fullHost) i) = Except.ok ri
        ∧ truthyName ri = true := by
      obtain ⟨ri, hpr, hacc⟩ := haccept
      exact ⟨ri, hpr, (truthyName_iff ri).mpr hacc⟩
    rcases hsp : splitDot fullHost with _ | ⟨p0, rest⟩
    · rw [hsp] at hlt
      simp at hlt
    · rw [hsp] at hlt hrejT haccT
      unfold findZone
      rw [hsp]
      exact findZoneGo_accepts probe (p0 :: rest) rest [p0] i rfl (by simpa using h1)
        hlt hrejT haccT
  · intro probe fullHost hrej
    have hrejT : ∀ j, 1 ≤ j → j + 1 < (splitDot fullHost).length →
        ∃ rj, probe (candidateAt (splitDot fullHost) j) = Except.ok rj
          ∧ truthyName rj = false := by
      intro j hj1 hj2
      obtain ⟨rj, hpr, hnacc⟩ := hrej j hj1 hj2
      refine ⟨rj, hpr, ?_⟩
      rcases htr : truthyName rj with _ | _
      · rfl
      · exact absurd ((truthyName_iff rj).mp htr) hnacc
    rcases hsp : splitDot fullHost with _ | ⟨p0, rest⟩
    · unfold findZone
      rw [hsp]
      simp [relName, joinDot]
    · rw [hsp] at hrejT
      unfold findZone
      rw [hsp]
      exact findZoneGo_allRejected probe (p0 :: rest) rest [p0] rfl
        (fun j hj1 hj2 => hrejT j (by simpa using hj1) hj2)

/-- Witness for C5: with stub probes that accept only `"example.com"`, the
input `"_acme-challenge.sub.example.com"` resolves to zone `"example.com"`
with relative name `"_acme-challenge.sub"`, after probing
`"sub.example.com"` and then `"example.com"`. -/
theorem c5_witness :
    findZone (fun c => if c = "example.com"
        then Except.ok (ProbeResult.object (some "example.com"))
        else Except.ok ProbeResult.nullResult) "_acme-challenge.sub.example.com"
      = (Except.ok ("example.com", "_acme-challenge.sub"),
         ["sub.example.com", "example.com"]) := by
  have happ := c5_findZone_first_accepted_or_fallback.1
    (fun c => if c = "example.com" then Except.ok (ProbeResult.object (some "example.com"))
      else Except.ok ProbeResult.nullResult)
    "_acme-challenge.sub.example.com" 2 (by omega) (by decide)
    (fun j hj1 hj2 => by
      have hj : j = 1 := by omega
      subst hj
      exact ⟨ProbeResult.nullResult, by decide,
        by rintro ⟨n, hn, _⟩; exact ProbeResult.noConfusion hn⟩)
    ⟨ProbeResult.object (some "example.com"), by decide, ⟨"example.com", rfl, by decide⟩⟩
  exact happ.trans (by decide)

/-- C10: for every input with exactly two dot-separated labels, `findZone`
performs no remote zone probe at all (the probed-candidate trace is empty and
the result does not depend on the probe) and returns the fallback
`{zone := fullHost, relativeName := "@"}`. -/
theorem c10_two_label_no_probes :
    ∀ (probe : String → Except String ProbeResult) (fullHost : String),
      (splitDot fullHost).length = 2 →
      findZone probe fullHost = (Except.ok (fullHost, "@"), []) := by
  intro probe fullHost h2
  have hid := joinDot_splitDot fullHost
  rcases hsp : splitDot fullHost with _ | ⟨p0, rest⟩
  · rw [hsp] at h2
    simp at h2
  · rcases rest with _ | ⟨p1, rest2⟩
    · rw [hsp] at h2
      simp at h2
    · rcases rest2 with _ | ⟨p2, rest3⟩
      · rw [hsp] at hid
        unfold findZone
        rw [hsp]
        show findZoneGo probe [p0, p1] [p0] [p1] = _
        have hgo : findZoneGo probe [p0, p1] [p0] [p1]
            = (Except.ok (joinDot [p0, p1], "@"), []) := by
          simp [findZoneGo, relName, joinDot]
        rw [hgo, hid]
      · rw [hsp] at h2
        simp at h2

/-- Witness for C10: `"example.com"` yields `{zone := "example.com",
relativeName := "@"}` even under a probe that would throw, since no probe is
performed. -/
theorem c10_witness :
    findZone (fun _ => Except.error "probe must not be called") "example.com"
      = (Except.ok ("example.com", "@"), []) :=
  c10_two_label_no_probes (fun _ => Except.error "probe must not be called")
    "example.com" (by decide)

/-! Section: Claim theorems: renewal decision -/

/-- C3 counterexample: `["a.com", "b.com"]` and `["b.com", "a.com", "b.com"]`
contain the same set of distinct elements (`specSetEq` holds), yet
`_arraysMatch` reports them different, because its length check makes the
comparison duplicate-sensitive. -/
theorem c3_counterexample :
    specSetEq ["a.com", "b.com"] ["b.com", "a.com", "b.com"]
    ∧ _arraysMatch ["a.com", "b.com"] ["b.com", "a.com", "b.com"] = false := by
  constructor
  · constructor <;> decide
  · decide

/-- C3 (amended): the domain comparison used by the renewal decision is
order-insensitive but duplicate-sensitive: `_arraysMatch` reports two string
lists equal exactly when one is a permutation of the other (same multiset,
any order). -/
theorem c3_arraysMatch_order_insensitive :
    ∀ (arr1 arr2 : List String), _arraysMatch arr1 arr2 = true ↔ arr1.Perm arr2 :=
  fun arr1 arr2 => _arraysMatch_iff_perm arr1 arr2

/-- C2 counterexample: with a parseable certificate whose data match the
configuration in every claimed respect — expiry far beyond the renewal window,
equal common name, domain lists equal as unordered sets, equal staging flag —
the code still decides to renew, because the desired domain list
`["a.com", "a.com"]` (reachable from `commonName = "a.com"`,
`altNames = "a.com"`, third conjunct) and the certificate's `["a.com"]` differ
in length. The claimed "if and only if" with a set comparison therefore fails. -/
theorem c2_counterexample :
    generateCollectionShouldCreate
        (fun _ => Except.ok ⟨1000000000000, "a.com", ["a.com"]⟩)
        0 false "a.com" ["a.com", "a.com"] (some ⟨"PEM-text", false⟩) = true
    ∧ ¬ specMustRenewSets
        (fun _ => Except.ok ⟨1000000000000, "a.com", ["a.com"]⟩)
        0 false "a.com" ["a.com", "a.com"] (some ⟨"PEM-text", false⟩)
    ∧ domainsOf "a.com" "a.com" = ["a.com", "a.com"] := by
  refine ⟨by decide, ?_, by decide⟩
  unfold specMustRenewSets
  intro h
  rcases h with h | h | h | h
  · exact absurd h (by decide)
  · exact h rfl
  · exact h ⟨by decide, by decide⟩
  · exact h rfl

/-- C2 (amended): the renewal decision returns true (must renew) if and only
if at least one of: no existing certificate collection; parse failure on the
existing certificate; the certificate's `notAfter` within the 7-day renewal
window of now; the configured common name differing from the certificate's
subject common name; the desired domain list differing from the certificate's
alternative-name list as unordered MULTISETS (order-insensitive but
duplicate-sensitive); or the staging flag differing from the collection's. -/
theorem c2_renewal_decision_iff :
    ∀ (parseCert : String → Except String ParsedCert) (now : Int) (useStaging : Bool)
      (commonName : String) (domains : List String)
      (existingCollection : Option ExistingCollection),
      generateCollectionShouldCreate parseCert now useStaging commonName domains
          existingCollection = true
        ↔ specMustRenewMultiset parseCert now useStaging commonName domains
            existingCollection := by
  intro parseCert now useStaging commonName domains existingCollection
  cases existingCollection with
  | none => simp [generateCollectionShouldCreate, specMustRenewMultiset]
  | some ec =>
    cases hp : parseCert ec.cert with
    | error e => simp [generateCollectionShouldCreate, specMustRenewMultiset, hp]
    | ok crt =>
      simp only [generateCollectionShouldCreate, specMustRenewMultiset, hp]
      by_cases h1 : now > crt.notAfterMs - renewWindow
      · simp [h1]
      · by_cases h2 : commonName = crt.subjectCommonName
        · by_cases h3 : _arraysMatch domains crt.altNames = true
          · have hperm := (_arraysMatch_iff_perm domains crt.altNames).mp h3
            by_cases h4 : useStaging = ec.staging
            · simp [h1, h2, h3, h4, hperm]
            · simp [h1, h2, h3, h4, hperm]
          · have hnperm : ¬ domains.Perm crt.altNames :=
              fun hq => h3 ((_arraysMatch_iff_perm domains crt.altNames).mpr hq)
            simp [h1, h2, h3, hnperm]
        · simp [h1, h2]

/-! Section: Claim theorems: API status classification -/

/-- C7: for every parsed API response, a statuscode in the band
`2000 ≤ statuscode < 3000` is a success and `responsedata` is returned
(regardless of `throwOnError`); a statuscode outside the band raises the
descriptive API error when `throwOnError` is true and returns `null` (never
raises) when `throwOnError` is false. -/
theorem c7_apiCall_status_band :
    ∀ {α : Type} (statuscode : Int) (longmessage shortmessage : Option String)
      (responsedata : α),
      ((2000 ≤ statuscode ∧ statuscode < 3000) →
        ∀ throwOnError,
          apiCallResult statuscode longmessage shortmessage responsedata throwOnError
            = Except.ok (some responsedata))
      ∧ (¬ (2000 ≤ statuscode ∧ statuscode < 3000) →
        apiCallResult statuscode longmessage shortmessage responsedata true
          = Except.error (netcupApiErrorMsg statuscode longmessage shortmessage)
        ∧ apiCallResult statuscode longmessage shortmessage responsedata false
          = Except.ok none) := by
  intro α sc lm sm rd
  constructor
  · rintro ⟨hlo, hhi⟩ toe
    unfold apiCallResult
    simp [hlo, hhi]
  · intro hband
    have hfalse : (decide (2000 ≤ sc) && decide (sc < 3000)) = false := by
      by_cases hlo : 2000 ≤ sc
      · by_cases hhi : sc < 3000
        · exact absurd ⟨hlo, hhi⟩ hband
        · simp [hlo, hhi]
      · simp [hlo]
    unfold apiCallResult
    constructor <;> simp [hfalse]

/-- Witness for C7: statuscode 2011 ("object created/updated") is a success
and returns the response data; statuscode 5029 ("zone not found") raises with
`throwOnError = true` and returns `null` with `throwOnError = false`. -/
theorem c7_witness :
    apiCallResult 2011 none none (42 : Nat) true = Except.ok (some 42)
    ∧ apiCallResult 5029 none (some "zone not found") (42 : Nat) true
      = Except.error (netcupApiErrorMsg 5029 none (some "zone not found"))
    ∧ apiCallResult 5029 none (some "zone not found") (42 : Nat) false
      = Except.ok none :=
  ⟨(c7_apiCall_status_band 2011 none none 42).1 ⟨by decide, by decide⟩ true,
   ((c7_apiCall_status_band 5029 none (some "zone not found") 42).2 (by decide)).1,
   ((c7_apiCall_status_band 5029 none (some "zone not found") 42).2 (by decide)).2⟩

/-! Section: Claim theorems: session bracketing and credential masking -/

theorem logout_always_ok (r : Except String Unit) : logout r = Except.ok () := by
  cases r <;> rfl

theorem setBody_logout_indep (env : NetcupEnv) (r : Except String Unit) (dnsHost : String) :
    setBody { env with logoutResult := r } dnsHost = setBody env dnsHost := rfl

theorem removeBody_logout_indep (env : NetcupEnv) (r : Except String Unit)
    (dnsHost dnsAuthorization : String) :
    removeBody { env with logoutResult := r } dnsHost dnsAuthorization
      = removeBody env dnsHost dnsAuthorization := rfl

/-- C8: session bracketing of the handler operations. (1)-(2): whenever login
succeeds, a logout attempt appears in the trace of `set` / `remove` on every
exit path (zone-resolution failure, record failure, success, and for `set`
also the later polling failure). (3): any error of the logout API call is
swallowed — `logout` always returns normally. (4)-(5): the entire outcome and
trace of `set` / `remove` are independent of whether the logout API call
fails. (6): a login failure propagates to the caller and the operation
performs no zone or record action (trace is exactly the login call). (7):
`get` opens no session at all, so the bracketing claim is vacuous for it. -/
theorem c8_session_bracketing :
    (∀ (env : NetcupEnv) (dnsHost dnsAuthorization sid : String),
      env.loginResult = Except.ok sid →
      OpEvent.logoutCall ∈ (setOp env dnsHost dnsAuthorization).2)
    ∧ (∀ (env : NetcupEnv) (dnsHost dnsAuthorization sid : String),
      env.loginResult = Except.ok sid →
      OpEvent.logoutCall ∈ (removeOp env dnsHost dnsAuthorization).2)
    ∧ (∀ r : Except String Unit, logout r = Except.ok ())
    ∧ (∀ (env : NetcupEnv) (dnsHost dnsAuthorization : String) (r : Except String Unit),
      setOp { env with logoutResult := r } dnsHost dnsAuthorization
        = setOp { env with logoutResult := Except.ok () } dnsHost dnsAuthorization)
    ∧ (∀ (env : NetcupEnv) (dnsHost dnsAuthorization : String) (r : Except String Unit),
      removeOp { env with logoutResult := r } dnsHost dnsAuthorization
        = removeOp { env with logoutResult := Except.ok () } dnsHost dnsAuthorization)
    ∧ (∀ (env : NetcupEnv) (dnsHost dnsAuthorization e : String),
      env.loginResult = Except.error e →
      setOp env dnsHost dnsAuthorization = (Except.error e, [OpEvent.loginCall])
      ∧ removeOp env dnsHost dnsAuthorization = (Except.error e, [OpEvent.loginCall]))
    ∧ (∀ (env : NetcupEnv) (dnsHost dnsAuthorization : String),
      OpEvent.loginCall ∉ (getOp env dnsHost dnsAuthorization).2
      ∧ OpEvent.logoutCall ∉ (getOp env dnsHost dnsAuthorization).2) := by
  refine ⟨?_, ?_, logout_always_ok, ?_, ?_, ?_, ?_⟩
  · intro env dnsHost dnsAuthorization sid hlogin
    simp only [setOp, hlogin]
    split <;> simp [jsTryFinally, logoutOp]
  · intro env dnsHost dnsAuthorization sid hlogin
    simp only [removeOp, hlogin, jsTryFinally, logoutOp]
    simp
  · intro env dnsHost dnsAuthorization r
    simp only [setOp, jsTryFinally, logoutOp, logout_always_ok, setBody_logout_indep]
  · intro env dnsHost dnsAuthorization r
    simp only [removeOp, jsTryFinally, logoutOp, logout_always_ok, removeBody_logout_indep]
  · intro env dnsHost dnsAuthorization e hlogin
    constructor <;> simp [setOp, removeOp, hlogin]
  · intro env dnsHost dnsAuthorization
    constructor <;> (cases hg : env.getLookup <;> simp [getOp, hg])

/-- Witness for C8: a successful login leads to a logout attempt in `set`'s
trace even though the logout API call itself fails; a failed login makes
`remove` return the login error having performed only the login call. -/
theorem c8_witness :
    OpEvent.logoutCall ∈ (setOp ⟨Except.ok "sid", fun _ => Except.ok ProbeResult.nullResult,
      Except.ok (), Except.ok (some []), Except.ok (), Except.error "session expired",
      fun _ => LookupResult.failure, LookupResult.failure⟩
      "_acme-challenge.example.com" "tok").2
    ∧ removeOp ⟨Except.error "login failed", fun _ => Except.ok ProbeResult.nullResult,
      Except.ok (), Except.ok (some []), Except.ok (), Except.ok (),
      fun _ => LookupResult.failure, LookupResult.failure⟩
      "_acme-challenge.example.com" "tok"
      = (Except.error "login failed", [OpEvent.loginCall]) :=
  ⟨c8_session_bracketing.1 _ "_acme-challenge.example.com" "tok" "sid" rfl,
   (c8_session_bracketing.2.2.2.2.2.1 _ "_acme-challenge.example.com" "tok"
     "login failed" rfl).2⟩

/-- C9 counterexample: the account identifier (Netcup customer number) is a
credential field, yet it appears in cleartext. The masking filter of
`onReady` / `initChallenges` leaves the `customerNumber` entry untouched
(its key matches none of `api|key|secret|password|token`), and the `create()`
log line of the handler interpolates the customer number directly, so the
cleartext value `"12345"` is a substring of the logged message. -/
theorem c9_counterexample :
    maskConfig [("customerNumber", "12345"), ("apiKey", "KEY"), ("apiPassword", "PW")]
      = [("customerNumber", "12345"), ("apiKey", "***"), ("apiPassword", "***")]
    ∧ "12345".data <:+: (createLogMessage "12345").data := by
  refine ⟨by decide, ?_⟩
  exact ⟨"[acme-dns-01-netcup] create() called, customerNumber=\"".data, "\"".data,
    by simp [createLogMessage, String.data_append, List.append_assoc]⟩

/-- C9 (amended): the API key / secret / password / token credential fields
never reach a log in cleartext: every configuration entry whose key matches
the credential pattern case-insensitively and whose value is a nonempty string
is replaced by `"***"` by the masking step that runs before the configuration
or DNS-01 option objects are logged. (The account identifier / customer number
is NOT covered: it is not matched by the pattern and `create()` logs it in
cleartext, per the counterexample.) -/
theorem c9_credential_masking :
    ∀ (cfg : List (String × String)) (key value : String),
      (key, value) ∈ cfg → isCredentialKey key = true → ¬ value = "" →
      (key, "***") ∈ maskConfig cfg := by
  intro cfg key value hmem hcred hne
  unfold maskConfig
  have hfn : (key, "***") = (fun kv : String × String =>
      if isCredentialKey kv.1 = true ∧ ¬ kv.2 = "" then (kv.1, "***") else kv) (key, value) := by
    simp [hcred, hne]
  rw [hfn]
  exact List.mem_map_of_mem _ hmem

/-- Witness for C9: the `apiPassword` entry with a nonempty value is masked. -/
theorem c9_witness :
    ("apiPassword", "***") ∈ maskConfig
      [("customerNumber", "12345"), ("apiPassword", "hunter2")] :=
  c9_credential_masking [("customerNumber", "12345"), ("apiPassword", "hunter2")]
    "apiPassword" "hunter2" (by decide) (by decide) (by decide)
